import Mathlib

/-!
# Verification of the audio_analysis signal pipeline

Shallow embedding of the parts of the `audio_analysis` repository that the
verified properties speak about:

* `pitch_utils.py` (`PitchConverter`): frequency/MIDI conversion and note-name
  parsing.  Real-valued formulas are embedded over `ℝ`; the note-name parser is
  embedded as an executable function over `String`.
* `visualizer/melody_layer.py` (`MelodyLayer`): the melody history
  (`times`/`freqs`/`volumes`), main-peak selection, window eviction,
  harmonic-ratio testing (`is_frequency_multiplication_relationship`),
  misjudgment anchoring and the retroactive fix (`fix_misjudgment`).  The
  stateful code is embedded as explicit state passing over a state record;
  a Python `IndexError` is modelled by returning `none`.
* `peak_detector.py` (`PeakDetector`): the dynamic-threshold pass, parabolic
  sub-bin refinement and the final amplitude/frequency sort.
* `visualizer/spectrum_curve_layer.py` (`SpectrumCurveLayer._compute_spectrum`):
  the interpolation-failure fallback.

Python floats are embedded as exact rationals (`ℚ`) where the code only does
field arithmetic and comparisons, and as reals (`ℝ`) where it uses `log2`/`2**x`.
-/

namespace AudioAnalysis

/-! ## Configuration constants (config.py) -/

/-- `MELODY_LAYER_PARAMS['time_window']` -/
def timeWindow : ℚ := 10

/-- `MELODY_LAYER_PARAMS['multiplication_tolerance']` (0.05) -/
def multiplicationTolerance : ℚ := 1/20

/-- `MELODY_LAYER_PARAMS['misjudgment_max_duration']` (0.2) -/
def misjudgmentMaxDuration : ℚ := 1/5

/-- `MELODY_LAYER_PARAMS['peak_db_offset']` -/
def peakDbOffset : ℚ := 50

/-- `MELODY_LAYER_PARAMS['main_peak_threshold']` (0.5) -/
def mainPeakThreshold : ℚ := 1/2

/-- `PEAK_LAYER_PARAMS['dynamic_threshold']` (0.72) -/
def dynamicThreshold : ℚ := 18/25

/-- `PEAK_LAYER_PARAMS['db_offset']` -/
def dbOffset : ℚ := 60

/-- `PEAK_LAYER_PARAMS['num']` -/
def peakNum : ℕ := 5

/-! ## PitchConverter (pitch_utils.py) -/

/-- `PitchConverter.note_names`: the twelve chromatic names
`['C', 'C#', 'D', 'D#', 'E', 'F', 'F#', 'G', 'G#', 'A', 'A#', 'B']`. -/
def noteNames : List String :=
  ["C", "C#", "D", "D#", "E", "F"] ++ ["F#", "G", "G#", "A", "A#", "B"]

/-- `PitchConverter.frequency_to_midi`: `12 * log2(freq / reference) + 69`,
with the guard returning 0 for `freq <= 0`. -/
noncomputable def frequencyToMidi (reference freq : ℝ) : ℝ :=
  if freq ≤ 0 then 0 else 12 * Real.logb 2 (freq / reference) + 69

/-- Modelled from the spec: `midiToFrequency(midi) -> float` is described as the
inverse of `frequencyToMidi`, i.e. `reference * 2 ** ((midi - 69) / 12)`.
`PitchConverter.midi_to_frequency` is called by `MelodyLayer` but its
definition is not among the provided source files. -/
noncomputable def midiToFrequency (reference midi : ℝ) : ℝ :=
  reference * (2 : ℝ) ^ ((midi - 69) / 12)

/-- Error outcomes of `PitchConverter.note_to_freq`: the `ValueError`
raised when the regex does not match, and the `ValueError` raised when the
(uppercased) letter+accidental is not in `note_names`. -/
inductive NoteError where
  | invalidFormat : NoteError
  | unknownNote : NoteError
deriving DecidableEq

/-- Letter class `[A-Ga-g]` of the `note_to_freq` regex. -/
def isNoteLetter (c : Char) : Bool :=
  ('A' ≤ c && c ≤ 'G') || ('a' ≤ c && c ≤ 'g')

/-- Digit class `\d` of the `note_to_freq` regex. -/
def isDigitChar (c : Char) : Bool :=
  '0' ≤ c && c ≤ '9'

/-- `\d+$`: one or more digits running to the end of the string. -/
def parseNatDigits (cs : List Char) : Option ℕ :=
  if cs = [] then none
  else if cs.all isDigitChar then
    some (cs.foldl (fun acc c => 10 * acc + (c.toNat - '0'.toNat)) 0)
  else none

/-- `(-?\d+)$`: optionally signed integer running to the end of the string. -/
def parseOctave (cs : List Char) : Option ℤ :=
  match cs with
  | '-' :: rest => (parseNatDigits rest).map (fun n => -(n : ℤ))
  | _ => (parseNatDigits cs).map (fun n => (n : ℤ))

/-- The regex match `^([A-Ga-g](?:#|b)?)(-?\d+)$` with `re.IGNORECASE`,
followed by `note_part = match.group(1).upper()`.  Under `IGNORECASE` the
literal accidental `b` also matches `B`.  The accidental is taken greedily;
since `#`/`b`/`B` can never start the octave group, this agrees with the
backtracking regex engine. -/
def parseNote (s : String) : Option (String × ℤ) :=
  match s.data with
  | [] => none
  | c :: rest =>
    if isNoteLetter c then
      let acc : List Char × List Char :=
        match rest with
        | a :: r => if a = '#' ∨ a = 'b' ∨ a = 'B' then ([a], r) else ([], rest)
        | [] => ([], rest)
      match parseOctave acc.2 with
      | some oct => some (String.mk ((c :: acc.1).map Char.toUpper), oct)
      | none => none
    else none

/-- `PitchConverter.note_to_freq`: parse the note string, look the note part up
in `note_names`, compute `midi = (octave + 1) * 12 + note_index` and return
`reference * 2 ** ((midi - 69) / 12)`. -/
noncomputable def noteToFreq (reference : ℝ) (noteStr : String) : Except NoteError ℝ :=
  match parseNote noteStr with
  | none => .error .invalidFormat
  | some (notePart, octave) =>
    match noteNames.indexOf? notePart with
    | none => .error .unknownNote
    | some noteIndex =>
      let midi : ℤ := (octave + 1) * 12 + noteIndex
      .ok (reference * (2 : ℝ) ^ (((midi : ℝ) - 69) / 12))

/-! ## Harmonic-ratio test (`MelodyLayer.is_frequency_multiplication_relationship`) -/

/-- The candidate set `{k1/k2 : 1 <= k2 <= k1 <= 5}` built by the nested loops
`for k1 in range(1, 6): for k2 in range(1, k1 + 1)`. -/
def validRatios : List ℚ :=
  (List.range 5).flatMap fun a => (List.range (a + 1)).map fun b => ((a : ℚ) + 1) / ((b : ℚ) + 1)

/-- Python's `abs()` on a rational. -/
def absQ (q : ℚ) : ℚ := if q < 0 then -q else q

/-- The candidate scan: `min_diff = inf; closest_ratio = None`, then for each
candidate keep it when `abs(ratio - candidate) < min_diff`.  The accumulator
`none` plays the role of `closest_ratio = None` (any finite difference beats
`float('inf')`). -/
def findClosest (ratio : ℚ) : List ℚ → Option (ℚ × ℚ) → Option (ℚ × ℚ)
  | [], acc => acc
  | c :: cs, acc =>
    match acc with
    | none => findClosest ratio cs (some (absQ (ratio - c), c))
    | some (md, cl) =>
      if absQ (ratio - c) < md then findClosest ratio cs (some (absQ (ratio - c), c))
      else findClosest ratio cs (some (md, cl))

/-- `MelodyLayer.is_frequency_multiplication_relationship(freq1, freq2, tolerance)`:
0 when either frequency is 0; otherwise compare `ratio = larger / smaller`
against the nearest entry of `validRatios` and, when the minimal difference is
within tolerance, return the candidate signed by whether `freq1 > freq2`. -/
def harmonicMult (freq1 freq2 tolerance : ℚ) : ℚ :=
  if freq1 = 0 ∨ freq2 = 0 then 0
  else
    let larger := if freq1 > freq2 then freq1 else freq2
    let smaller := if freq1 > freq2 then freq2 else freq1
    let ratio := larger / smaller
    match findClosest ratio validRatios none with
    | none => 0
    | some (minDiff, closest) =>
      if minDiff ≤ tolerance then (if freq1 > freq2 then closest else -closest)
      else 0

/-! ## MelodyLayer state machine (visualizer/melody_layer.py) -/

/-- The mutable state of `MelodyLayer` that `process` reads and writes:
the three parallel history lists and the misjudgment anchor
(`possible_misjudgment_peak_time` / `possible_misjudgment_peak_freq`). -/
structure MState where
  times : List ℚ
  freqs : List ℚ
  volumes : List ℚ
  possibleMisjudgmentPeakTime : Option ℚ
  possibleMisjudgmentPeakFreq : Option ℚ
deriving DecidableEq

/-- The state after `MelodyLayer.__init__` / `clean`. -/
def initState : MState := ⟨[], [], [], none, none⟩

/-- The main-peak selection loop of `process`: walk the peak list and take the
first peak that is the last one (`i == len(peaks) - 1`) or whose offset dB
strictly exceeds `main_peak_threshold` times the next peak's offset dB.
Returns `none` exactly when `peaks` is empty (`has_new_melody` stays false). -/
def selectMainPeak : List (ℚ × ℚ) → Option ℚ
  | [] => none
  | [(freq, _)] => some freq
  | (freq, db) :: (f2, d2) :: rest =>
    if mainPeakThreshold * (d2 + peakDbOffset) < db + peakDbOffset then some freq
    else selectMainPeak ((f2, d2) :: rest)

/-- Appending the new data point to the three history lists. -/
def appendPoint (s : MState) (t freq vol : ℚ) : MState :=
  { s with times := s.times ++ [t], freqs := s.freqs ++ [freq],
           volumes := s.volumes ++ [vol] }

/-- `valid_indices[0]`: first index whose time satisfies
`t >= cutoff and t <= current_time`. -/
def firstValidIdx (cutoff currentTime : ℚ) : List ℚ → Option ℕ
  | [] => none
  | t :: ts =>
    if cutoff ≤ t ∧ t ≤ currentTime then some 0
    else (firstValidIdx cutoff currentTime ts).map (· + 1)

/-- Window eviction: slice all three lists from the first in-window index, or
clear them entirely when no point is in-window. -/
def evictOld (s : MState) (currentTime : ℚ) : MState :=
  match firstValidIdx (currentTime - timeWindow) currentTime s.times with
  | some k =>
    { s with times := s.times.drop k, freqs := s.freqs.drop k,
             volumes := s.volumes.drop k }
  | none => { s with times := [], freqs := [], volumes := [] }

/-- Appending the selected main peak (when any) followed by window eviction:
the history part of `process`. -/
def historyUpdate (s : MState) (currentTime : ℚ) (peaks : List (ℚ × ℚ)) (vol : ℚ) : MState :=
  match selectMainPeak peaks with
  | some f => evictOld (appendPoint s currentTime f vol) currentTime
  | none => evictOld s currentTime

/-- The backward scan of `fix_misjudgment`, walking
`i in range(0, len(freqs))` and reading `freqs[-i-2]`, i.e. positions
`len-2, len-3, ...`.  Here `j = len - i - 2` is the current position.  Points
with harmonic ratio 0 are skipped, the scan stops at the first ratio `±1`, and
every other point is replaced by `freq*m` (`m > 0`) or `freq/|m|` (`m < 0`).
After position `0` the next Python iteration reads `freqs[-len-1]`, which
raises `IndexError`; this is modelled by returning `none`. -/
def fixLoop (anchorFreq : ℚ) (freqs : List ℚ) (j : ℕ) : Option (List ℚ) :=
  let freq := freqs.getD j 0
  let m := harmonicMult anchorFreq freq multiplicationTolerance
  if absQ m = 1 then some freqs
  else
    let freqs' := if m = 0 then freqs
      else freqs.set j (if 0 < m then freq * m else freq / absQ m)
    match j with
    | 0 => none
    | j' + 1 => fixLoop anchorFreq freqs' j'

/-- `MelodyLayer.fix_misjudgment`: early return (no state change) when no
anchor is active or fewer than 3 points are stored; otherwise run the backward
scan and, when it completes, clear both anchor fields.  `none` models the
`IndexError` escaping from the scan. -/
def fixMisjudgment (s : MState) : Option MState :=
  match s.possibleMisjudgmentPeakFreq with
  | none => some s
  | some af =>
    if s.freqs.length < 3 then some s
    else
      match fixLoop af s.freqs (s.freqs.length - 2) with
      | none => none
      | some freqs' =>
        some { s with freqs := freqs',
                      possibleMisjudgmentPeakTime := none,
                      possibleMisjudgmentPeakFreq := none }

/-- The misjudgment block of `process` (anchor creation, regression test,
disproof, and the trailing anchor timeout), operating on the state after the
history update.  Runs only when `has_new_melody and len(self.freqs) > 1`.
`none` models an `IndexError` escaping from `fix_misjudgment`. -/
def misjudgmentStep (s2 : MState) (currentTime : ℚ) : Option MState :=
  let y := s2.freqs.getD (s2.freqs.length - 2) 0
  let z := s2.freqs.getD (s2.freqs.length - 1) 0
  let m := harmonicMult y z multiplicationTolerance
  let s3opt : Option MState :=
    if m ≠ 0 then
      if absQ m ≠ 1 then
        match s2.possibleMisjudgmentPeakFreq with
        | none =>
          some { s2 with
            possibleMisjudgmentPeakTime :=
              some (s2.times.getD (s2.times.length - 2) 0),
            possibleMisjudgmentPeakFreq := some y }
        | some af =>
          if absQ (harmonicMult af z multiplicationTolerance) = 1 then fixMisjudgment s2
          else some s2
      else some s2
    else
      match s2.possibleMisjudgmentPeakFreq with
      | some _ =>
        some { s2 with possibleMisjudgmentPeakTime := none,
                       possibleMisjudgmentPeakFreq := none }
      | none => some s2
  match s3opt with
  | none => none
  | some s3 =>
    match s3.possibleMisjudgmentPeakFreq with
    | some _ =>
      if misjudgmentMaxDuration < currentTime - s3.possibleMisjudgmentPeakTime.getD 0 then
        some { s3 with possibleMisjudgmentPeakTime := none,
                       possibleMisjudgmentPeakFreq := none }
      else some s3
    | none => some s3

/-- `MelodyLayer.process` restricted to the state it mutates (the axis/scatter
drawing calls touch no tracked state).  Steps: early return on
`current_time <= 0`; append the selected main peak; window eviction; the
misjudgment block guarded by `has_new_melody and len(freqs) > 1`.  `none`
models an `IndexError` escaping from `fix_misjudgment`. -/
def melodyProcess (s : MState) (currentTime : ℚ) (peaks : List (ℚ × ℚ)) (volume : ℚ) :
    Option MState :=
  if currentTime ≤ 0 then some s
  else
    let hasNew := (selectMainPeak peaks).isSome
    let s2 := historyUpdate s currentTime peaks volume
    if hasNew ∧ 1 < s2.freqs.length then misjudgmentStep s2 currentTime
    else some s2

/-- Run `process` over a list of frames `(current_time, peaks, volume)`,
stopping if an exception escapes. -/
def runTrace (s : MState) : List (ℚ × List (ℚ × ℚ) × ℚ) → Option MState
  | [] => some s
  | (t, pks, vol) :: rest =>
    match melodyProcess s t pks vol with
    | none => none
    | some s' => runTrace s' rest

/-- A concrete input sequence: frequencies 120, 240, 600, 400 at times
1, 1.05, 1.1, 1.15 (single-peak frames, volume 0).  It drives the tracker
into a state where the anchor (1, 120) is active while the intervening
history holds unfixed harmonics. -/
def c3Trace : List (ℚ × List (ℚ × ℚ) × ℚ) :=
  [ (1, [(120, 0)], 0),
    (21/20, [(240, 0)], 0),
    (11/10, [(600, 0)], 0),
    (23/20, [(400, 0)], 0) ]

/-- The tracker state reached by `c3Trace`. -/
def c3PreState : MState :=
  ⟨[1, 21/20, 11/10, 23/20], [120, 240, 600, 400], [0, 0, 0, 0], some 1, some 120⟩

/-- The state after feeding one more 120 Hz point at time 1.2 to `c3PreState`:
the anchor is cleared by the disproof branch (the consecutive ratio
400 : 120 is not harmonic) and no stored frequency is corrected. -/
def c3PostState : MState :=
  ⟨[1, 21/20, 11/10, 23/20, 6/5], [120, 240, 600, 400, 120], [0, 0, 0, 0, 0], none, none⟩

/-- A concrete input sequence: frequencies 100, 200, 400 at times 0.1, 0.2,
0.3, then 100 again at time 10.15.  The last frame's eviction removes the
anchor's own 100 Hz point (time 0.1 < 10.15 - time_window) while the anchor
(0.1, 100) stays active, so the confirmed fix's backward scan finds no ~1:1
point and walks past the front of the list. -/
def c5Trace : List (ℚ × List (ℚ × ℚ) × ℚ) :=
  [ (1/10, [(100, 0)], 0),
    (1/5, [(200, 0)], 0),
    (3/10, [(400, 0)], 0),
    (203/20, [(100, 0)], 0) ]

/-! ## PeakDetector (peak_detector.py) -/

/-- The dynamic-threshold loop of `detect_peaks`, walking the
frequency-descending list of `(index, original dB)` pairs with
`prev_height = None` initially: the first peak is kept unconditionally; a later
peak is kept exactly when `h + db_offset >= prev_height * dynamic_threshold`,
and `prev_height` is updated only on a keep. -/
def dynamicFilterGo (prev : Option ℚ) : List (ℕ × ℚ) → List ℕ
  | [] => []
  | (idx, h0) :: rest =>
    let h := h0 + dbOffset
    match prev with
    | none => idx :: dynamicFilterGo (some h) rest
    | some p =>
      if p * dynamicThreshold ≤ h then idx :: dynamicFilterGo (some h) rest
      else dynamicFilterGo (some p) rest

/-- `filtered_indices` produced by the dynamic-threshold pass. -/
def dynamicFilter (l : List (ℕ × ℚ)) : List ℕ := dynamicFilterGo none l

/-- Written from the spec's words for the dynamic-threshold pass (claim C4):
"keep the first unconditionally; for each subsequent peak, offset its dB by a
fixed `db_offset` and keep it only if
`offsetDb >= previousKeptOffsetDb * dynamicThreshold`", the comparison
baseline being the most recently *kept* peak's offset dB. -/
def specDynamicKeep (lastKept : ℚ) : List (ℕ × ℚ) → List ℕ
  | [] => []
  | (idx, h0) :: rest =>
    if lastKept * dynamicThreshold ≤ h0 + dbOffset then
      idx :: specDynamicKeep (h0 + dbOffset) rest
    else specDynamicKeep lastKept rest

/-- Spec-worded dynamic-threshold pass: first peak kept, baseline its offset dB. -/
def specDynamicFilter : List (ℕ × ℚ) → List ℕ
  | [] => []
  | (idx, h0) :: rest => idx :: specDynamicKeep (h0 + dbOffset) rest

/-- `PeakDetector._sort_peaks`: stable-sort the `(freq, dB)` pairs by dB
descending, take the first `num`, then stable-sort by frequency ascending. -/
def sortPeaks (peaks : List (ℚ × ℚ)) : List (ℚ × ℚ) :=
  ((peaks.mergeSort (fun a b => decide (b.2 ≤ a.2))).take peakNum).mergeSort
    (fun a b => decide (a.1 ≤ b.1))

/-- `np.clip` on rationals: `np.minimum(hi, np.maximum(lo, v))`. -/
def rclip (v lo hi : ℚ) : ℚ := min hi (max lo v)

/-- The `1e-9` regulariser of `_parabolic_interpolation`. -/
def epsQ : ℚ := 1 / 1000000000

/-- `np.argmin(np.abs(x_subband - approx_freq))`: index of the first entry at
minimal absolute distance from the target. -/
def argminAbsIdxAux (target : ℚ) : List ℚ → ℕ → ℕ → ℚ → ℕ
  | [], _, bestIdx, _ => bestIdx
  | x :: rest, i, bestIdx, bestVal =>
    if |x - target| < bestVal then argminAbsIdxAux target rest (i + 1) i |x - target|
    else argminAbsIdxAux target rest (i + 1) bestIdx bestVal

/-- `np.argmin(np.abs(xs - target))` (0 on the empty list). -/
def argminAbsIdx (xs : List ℚ) (target : ℚ) : ℕ :=
  match xs with
  | [] => 0
  | x :: rest => argminAbsIdxAux target rest 1 0 |x - target|

/-- `sub_idx = np.clip(nearest_sub, 1, len(x_subband) - 2)`. -/
def clampSubIdx (nearest len : ℕ) : ℕ := min (len - 2) (max 1 nearest)

/-- `PeakDetector._parabolic_interpolation`: parabolic refinement of the peak
frequency from the three dB values around `sub_idx`, with the interpolation
offset clipped to `[-0.5, 0.5]` bins. -/
def parabolicInterpolation (x_subband : List ℚ) (freqStep : ℚ) (subIdx : ℕ)
    (db_subband : List ℚ) : ℚ :=
  let y0 := db_subband.getD (subIdx - 1) 0
  let y1 := db_subband.getD subIdx 0
  let y2 := db_subband.getD (subIdx + 1) 0
  let delta := rclip ((1/2) * (y0 - y2) / (y0 - 2 * y1 + y2 + epsQ)) (-(1/2)) (1/2)
  x_subband.getD subIdx 0 + delta * freqStep

/-! ## SpectrumCurveLayer interpolation fallback (visualizer/spectrum_curve_layer.py) -/

/-- The try/except of `_compute_spectrum` around the two `interp1d` calls.
The scipy interpolations themselves are opaque library calls; their outcomes
enter as `Option` values (`none` = the call raised).  If either raises, the
handler replaces *both* entries with `np.full_like(x_new, -120)` (`n` is
`len(x_new)`); when both succeed their results are used unchanged. -/
def computeInterpData (n : ℕ) (smoothRes rawRes : Option (List ℚ)) : List ℚ × List ℚ :=
  match smoothRes, rawRes with
  | some s, some r => (s, r)
  | _, _ => (List.replicate n (-120), List.replicate n (-120))

/-- The value returned by `_compute_spectrum`: the interpolated pair together
with the raw subband data — produced on every path, exception or not. -/
def computeSpectrumFrame (n : ℕ) (smoothRes rawRes : Option (List ℚ))
    (dbSubband : List ℚ) : (List ℚ × List ℚ) × List ℚ :=
  (computeInterpData n smoothRes rawRes, dbSubband)

/-! ## Helper lemmas -/

/-- `absQ` agrees with the absolute value. -/
lemma absQ_eq_abs (q : ℚ) : absQ q = |q| := by
  unfold absQ
  by_cases h : q < 0
  · rw [if_pos h, abs_of_neg h]
  · rw [if_neg h, abs_of_nonneg (not_lt.mp h)]

/-- The candidate list written out (`k1` rows for `k1 = 1,...,5`). -/
lemma validRatios_eq :
    validRatios = [1, 2, 1, 3, 3/2, 1, 4, 2, 4/3, 1, 5, 5/2, 5/3, 5/4, 1] := by
  norm_num [validRatios, List.range_succ]

/-- Every candidate ratio `k1/k2` is positive. -/
lemma validRatios_pos : ∀ c ∈ validRatios, 0 < c := by
  intro c hc
  rw [validRatios_eq] at hc
  simp only [List.mem_cons, List.not_mem_nil, or_false] at hc
  rcases hc with rfl|rfl|rfl|rfl|rfl|rfl|rfl|rfl|rfl|rfl|rfl|rfl|rfl|rfl|rfl <;> norm_num

/-- The candidate scan only ever returns the accumulator or a pair built from a
scanned candidate. -/
lemma findClosest_eq_acc_or_mem :
    ∀ (l : List ℚ) (r md cl : ℚ) (acc : Option (ℚ × ℚ)),
      findClosest r l acc = some (md, cl) → acc = some (md, cl) ∨ cl ∈ l := by
  intro l
  induction l with
  | nil => intro r md cl acc h; exact Or.inl h
  | cons c cs ih =>
    intro r md cl acc h
    simp only [findClosest] at h
    cases acc with
    | none =>
      rcases ih r md cl _ h with h' | h'
      · have h2 : c = cl := congrArg Prod.snd (Option.some.inj h')
        exact Or.inr (h2 ▸ List.mem_cons_self c cs)
      · exact Or.inr (List.mem_cons_of_mem _ h')
    | some p =>
      obtain ⟨md0, cl0⟩ := p
      replace h : (if absQ (r - c) < md0 then findClosest r cs (some (absQ (r - c), c))
          else findClosest r cs (some (md0, cl0))) = some (md, cl) := h
      by_cases hlt : absQ (r - c) < md0
      · rw [if_pos hlt] at h
        rcases ih r md cl _ h with h' | h'
        · have h2 : c = cl := congrArg Prod.snd (Option.some.inj h')
          exact Or.inr (h2 ▸ List.mem_cons_self c cs)
        · exact Or.inr (List.mem_cons_of_mem _ h')
      · rw [if_neg hlt] at h
        rcases ih r md cl _ h with h' | h'
        · exact Or.inl h'
        · exact Or.inr (List.mem_cons_of_mem _ h')

/-- `harmonicMult` either returns 0 or a candidate ratio signed by `freq1 > freq2`. -/
lemma harmonicMult_cases (f1 f2 tol : ℚ) :
    harmonicMult f1 f2 tol = 0 ∨
      ∃ cl ∈ validRatios, harmonicMult f1 f2 tol = if f1 > f2 then cl else -cl := by
  by_cases hz : f1 = 0 ∨ f2 = 0
  · exact Or.inl (by simp [harmonicMult, hz])
  · simp only [harmonicMult, if_neg hz]
    rcases hfc : findClosest ((if f1 > f2 then f1 else f2) / (if f1 > f2 then f2 else f1))
        validRatios none with _ | ⟨md, cl⟩
    · exact Or.inl rfl
    · have hcl : cl ∈ validRatios := by
        rcases findClosest_eq_acc_or_mem _ _ _ _ _ hfc with h' | h'
        · exact absurd h' (by simp)
        · exact h'
      by_cases htol : md ≤ tol
      · refine Or.inr ⟨cl, hcl, ?_⟩
        show (if md ≤ tol then (if f1 > f2 then cl else -cl) else 0) = if f1 > f2 then cl else -cl
        rw [if_pos htol]
      · refine Or.inl ?_
        show (if md ≤ tol then (if f1 > f2 then cl else -cl) else 0) = 0
        rw [if_neg htol]

/-! ## C1: harmonic-ratio sign convention and the two spec examples -/

/-- C1 (amended). `is_frequency_multiplication_relationship` signs the nearest
candidate ratio positively exactly when the *first* argument is the larger
frequency; consequently `harmonicRatio(440, 880) = -2` (440 is the smaller)
and `harmonicRatio(440, 660) = -1.5`, the magnitudes being the nearest simple
integer ratios 2 and 3/2. -/
theorem harmonicRatio_sign_and_examples :
    (∀ f1 f2 tol : ℚ, harmonicMult f1 f2 tol ≠ 0 →
      (0 < harmonicMult f1 f2 tol ↔ f2 < f1))
    ∧ harmonicMult 440 880 multiplicationTolerance = -2
    ∧ harmonicMult 440 660 multiplicationTolerance = -(3/2) := by
  refine ⟨?_, by norm_num [harmonicMult, findClosest, validRatios_eq, absQ, multiplicationTolerance],
    by norm_num [harmonicMult, findClosest, validRatios_eq, absQ, multiplicationTolerance]⟩
  intro f1 f2 tol hne
  rcases harmonicMult_cases f1 f2 tol with h | ⟨cl, hcl, h⟩
  · exact absurd h hne
  · have hpos : 0 < cl := validRatios_pos cl hcl
    rw [h]
    by_cases hgt : f1 > f2
    · rw [if_pos hgt]
      exact iff_of_true hpos hgt
    · rw [if_neg hgt]
      exact iff_of_false (by simpa using le_of_lt hpos) hgt

/-- C1 counterexample to the claim as stated: with the repository's tolerance,
`harmonicRatio(440, 880)` is *not* 2 (the code returns -2, because the first
argument is the smaller frequency). -/
theorem harmonicRatio_440_880_ne_two :
    harmonicMult 440 880 multiplicationTolerance ≠ 2 := by
  norm_num [harmonicMult, findClosest, validRatios_eq, absQ, multiplicationTolerance]

/-- C1 witness: the sign law applied at the concrete input (880, 440). -/
theorem harmonicRatio_sign_witness :
    harmonicMult 880 440 multiplicationTolerance ≠ 0 ∧
      (0 < harmonicMult 880 440 multiplicationTolerance ↔ (440 : ℚ) < 880) :=
  ⟨by norm_num [harmonicMult, findClosest, validRatios_eq, absQ, multiplicationTolerance],
    harmonicRatio_sign_and_examples.1 880 440 multiplicationTolerance
      (by norm_num [harmonicMult, findClosest, validRatios_eq, absQ, multiplicationTolerance])⟩

/-! ## C2: MIDI/frequency round trip -/

/-- C2. For every positive frequency (and positive reference pitch),
`midiToFrequency (frequencyToMidi freq) = freq` exactly over the reals — in
particular the round trip is within any floating tolerance. -/
theorem midiToFrequency_frequencyToMidi (reference freq : ℝ)
    (href : 0 < reference) (hfreq : 0 < freq) :
    midiToFrequency reference (frequencyToMidi reference freq) = freq := by
  unfold frequencyToMidi midiToFrequency
  rw [if_neg (not_le.mpr hfreq)]
  have h2 : (12 * Real.logb 2 (freq / reference) + 69 - 69) / 12 =
      Real.logb 2 (freq / reference) := by ring
  rw [h2, Real.rpow_logb (by norm_num) (by norm_num) (div_pos hfreq href)]
  field_simp

/-- C2 witness: the round trip at reference 442 and frequency 880. -/
theorem midiToFrequency_frequencyToMidi_witness :
    (0 : ℝ) < 442 ∧ (0 : ℝ) < 880 ∧
      midiToFrequency 442 (frequencyToMidi 442 880) = 880 :=
  ⟨by norm_num, by norm_num,
    midiToFrequency_frequencyToMidi 442 880 (by norm_num) (by norm_num)⟩

/-! ## C10: note-name parsing -/

/-- C10 (amended). With reference 442, `note_to_freq "A4"` returns 442.0;
`"H4"` fails with *InvalidFormat* (the regex letter class stops at G, so the
string never reaches the note-name lookup); `"A"` fails with InvalidFormat
(missing octave). -/
theorem noteToFreq_examples :
    noteToFreq 442 "A4" = Except.ok (442 : ℝ)
    ∧ noteToFreq 442 "H4" = Except.error NoteError.invalidFormat
    ∧ noteToFreq 442 "A" = Except.error NoteError.invalidFormat := by
  refine ⟨?_, rfl, rfl⟩
  have h : noteToFreq 442 "A4" =
      Except.ok ((442 : ℝ) * (2 : ℝ) ^ ((((((4 : ℤ) + 1) * 12 + ((9 : ℕ) : ℤ) : ℤ) : ℝ) - 69) / 12)) := by
    rfl
  rw [h]
  norm_num

/-- C10 counterexample to the claim as stated: `note_to_freq "H4"` does not
raise the unknown-note error (it raises the invalid-format error instead). -/
theorem noteToFreq_H4_not_unknownNote :
    noteToFreq 442 "H4" ≠ Except.error NoteError.unknownNote := by
  intro h
  exact NoteError.noConfusion (Except.error.inj h)

/-! ## C9: interpolation failure fallback -/

/-- C9. If either interpolation fails, `_compute_spectrum` still produces its
frame, with both the smooth and the raw curve replaced by the uniform -120 dB
array over the log axis. -/
theorem computeSpectrum_interp_fallback (n : ℕ) (smoothRes rawRes : Option (List ℚ))
    (dbSubband : List ℚ) (h : smoothRes = none ∨ rawRes = none) :
    computeSpectrumFrame n smoothRes rawRes dbSubband =
      ((List.replicate n (-120), List.replicate n (-120)), dbSubband) := by
  rcases h with h | h
  · subst h; cases rawRes <;> rfl
  · subst h; cases smoothRes <;> rfl

/-- C9 witness: a concrete frame where the smooth interpolation failed. -/
theorem computeSpectrum_interp_fallback_witness :
    computeSpectrumFrame 3 none (some [1, 2, 3]) [5, 6] =
      ((List.replicate 3 (-120), List.replicate 3 (-120)), [5, 6]) :=
  computeSpectrum_interp_fallback 3 none (some [1, 2, 3]) [5, 6] (Or.inl rfl)

/-! ## Concrete harmonic-ratio evaluations used by the melody-tracker traces -/

lemma hm_100_100 : harmonicMult 100 100 multiplicationTolerance = -1 := by
  norm_num [harmonicMult, findClosest, validRatios_eq, absQ, multiplicationTolerance]

lemma hm_100_200 : harmonicMult 100 200 multiplicationTolerance = -2 := by
  norm_num [harmonicMult, findClosest, validRatios_eq, absQ, multiplicationTolerance]

lemma hm_200_100 : harmonicMult 200 100 multiplicationTolerance = 2 := by
  norm_num [harmonicMult, findClosest, validRatios_eq, absQ, multiplicationTolerance]

lemma hm_100_400 : harmonicMult 100 400 multiplicationTolerance = -4 := by
  norm_num [harmonicMult, findClosest, validRatios_eq, absQ, multiplicationTolerance]

lemma hm_200_400 : harmonicMult 200 400 multiplicationTolerance = -2 := by
  norm_num [harmonicMult, findClosest, validRatios_eq, absQ, multiplicationTolerance]

lemma hm_400_100 : harmonicMult 400 100 multiplicationTolerance = 4 := by
  norm_num [harmonicMult, findClosest, validRatios_eq, absQ, multiplicationTolerance]

lemma hm_200_300 : harmonicMult 200 300 multiplicationTolerance = -(3/2) := by
  norm_num [harmonicMult, findClosest, validRatios_eq, absQ, multiplicationTolerance]

lemma hm_120_240 : harmonicMult 120 240 multiplicationTolerance = -2 := by
  norm_num [harmonicMult, findClosest, validRatios_eq, absQ, multiplicationTolerance]

lemma hm_240_600 : harmonicMult 240 600 multiplicationTolerance = -(5/2) := by
  norm_num [harmonicMult, findClosest, validRatios_eq, absQ, multiplicationTolerance]

lemma hm_120_600 : harmonicMult 120 600 multiplicationTolerance = -5 := by
  norm_num [harmonicMult, findClosest, validRatios_eq, absQ, multiplicationTolerance]

lemma hm_600_400 : harmonicMult 600 400 multiplicationTolerance = 3/2 := by
  norm_num [harmonicMult, findClosest, validRatios_eq, absQ, multiplicationTolerance]

lemma hm_120_400 : harmonicMult 120 400 multiplicationTolerance = 0 := by
  norm_num [harmonicMult, findClosest, validRatios_eq, absQ, multiplicationTolerance]

lemma hm_400_120 : harmonicMult 400 120 multiplicationTolerance = 0 := by
  norm_num [harmonicMult, findClosest, validRatios_eq, absQ, multiplicationTolerance]

lemma hm_120_120 : harmonicMult 120 120 multiplicationTolerance = -1 := by
  norm_num [harmonicMult, findClosest, validRatios_eq, absQ, multiplicationTolerance]

/-! ## Step-by-step evaluation of the two concrete traces -/

lemma c3s1 : melodyProcess initState 1 [(120, 0)] 0 =
    some ⟨[1], [120], [0], none, none⟩ := by
  norm_num [melodyProcess, historyUpdate, selectMainPeak, appendPoint, evictOld,
    firstValidIdx, timeWindow, initState]

lemma c3s2 : melodyProcess ⟨[1], [120], [0], none, none⟩ (21/20) [(240, 0)] 0 =
    some ⟨[1, 21/20], [120, 240], [0, 0], some 1, some 120⟩ := by
  norm_num [melodyProcess, misjudgmentStep, historyUpdate, selectMainPeak, appendPoint,
    evictOld, firstValidIdx, timeWindow, misjudgmentMaxDuration, hm_120_240, absQ]

lemma c3s3 : melodyProcess ⟨[1, 21/20], [120, 240], [0, 0], some 1, some 120⟩
    (11/10) [(600, 0)] 0 =
    some ⟨[1, 21/20, 11/10], [120, 240, 600], [0, 0, 0], some 1, some 120⟩ := by
  norm_num [melodyProcess, misjudgmentStep, historyUpdate, selectMainPeak, appendPoint,
    evictOld, firstValidIdx, timeWindow, misjudgmentMaxDuration, hm_240_600, hm_120_600, absQ]

lemma c3s4 : melodyProcess ⟨[1, 21/20, 11/10], [120, 240, 600], [0, 0, 0], some 1, some 120⟩
    (23/20) [(400, 0)] 0 = some c3PreState := by
  norm_num [melodyProcess, misjudgmentStep, historyUpdate, selectMainPeak, appendPoint,
    evictOld, firstValidIdx, timeWindow, misjudgmentMaxDuration, hm_600_400, hm_120_400,
    absQ, c3PreState]

lemma c3run : runTrace initState c3Trace = some c3PreState := by
  norm_num [c3Trace, runTrace, c3s1, c3s2, c3s3, c3s4]

lemma c3final : melodyProcess c3PreState (6/5) [(120, 0)] 0 = some c3PostState := by
  norm_num [melodyProcess, misjudgmentStep, historyUpdate, selectMainPeak, appendPoint,
    evictOld, firstValidIdx, timeWindow, misjudgmentMaxDuration, hm_400_120, absQ,
    c3PreState, c3PostState]

lemma c5s1 : melodyProcess initState (1/10) [(100, 0)] 0 =
    some ⟨[1/10], [100], [0], none, none⟩ := by
  norm_num [melodyProcess, historyUpdate, selectMainPeak, appendPoint, evictOld,
    firstValidIdx, timeWindow, initState]

lemma c5s2 : melodyProcess ⟨[1/10], [100], [0], none, none⟩ (1/5) [(200, 0)] 0 =
    some ⟨[1/10, 1/5], [100, 200], [0, 0], some (1/10), some 100⟩ := by
  norm_num [melodyProcess, misjudgmentStep, historyUpdate, selectMainPeak, appendPoint,
    evictOld, firstValidIdx, timeWindow, misjudgmentMaxDuration, hm_100_200, absQ]

lemma c5s3 : melodyProcess ⟨[1/10, 1/5], [100, 200], [0, 0], some (1/10), some 100⟩
    (3/10) [(400, 0)] 0 =
    some ⟨[1/10, 1/5, 3/10], [100, 200, 400], [0, 0, 0], some (1/10), some 100⟩ := by
  norm_num [melodyProcess, misjudgmentStep, historyUpdate, selectMainPeak, appendPoint,
    evictOld, firstValidIdx, timeWindow, misjudgmentMaxDuration, hm_200_400, hm_100_400, absQ]

lemma c5s4 : melodyProcess ⟨[1/10, 1/5, 3/10], [100, 200, 400], [0, 0, 0],
    some (1/10), some 100⟩ (203/20) [(100, 0)] 0 = none := by
  norm_num [melodyProcess, misjudgmentStep, historyUpdate, selectMainPeak, appendPoint,
    evictOld, firstValidIdx, fixMisjudgment, fixLoop, timeWindow, misjudgmentMaxDuration,
    hm_400_100, hm_100_100, hm_100_400, hm_100_200, absQ]

/-! ## Structural lemmas about the melody tracker -/

/-- A successful `fix_misjudgment` with an active anchor and at least 3 stored
points clears both anchor fields. -/
lemma fixMisjudgment_clears (s : MState) (af : ℚ) (s' : MState)
    (h1 : s.possibleMisjudgmentPeakFreq = some af) (h2 : ¬ s.freqs.length < 3)
    (h : fixMisjudgment s = some s') :
    s'.possibleMisjudgmentPeakTime = none ∧ s'.possibleMisjudgmentPeakFreq = none := by
  unfold fixMisjudgment at h
  rw [h1] at h
  simp only [if_neg h2] at h
  rcases hfl : fixLoop af s.freqs (s.freqs.length - 2) with _ | fr
  · rw [hfl] at h; exact absurd h (by simp)
  · rw [hfl] at h
    cases Option.some.inj h
    exact ⟨rfl, rfl⟩

/-- `fix_misjudgment` never touches the `times` or `volumes` lists. -/
lemma fixMisjudgment_times (s s' : MState) (h : fixMisjudgment s = some s') :
    s'.times = s.times ∧ s'.volumes = s.volumes := by
  unfold fixMisjudgment at h
  rcases ha : s.possibleMisjudgmentPeakFreq with _ | af
  · rw [ha] at h
    simp only [] at h
    cases Option.some.inj h
    exact ⟨rfl, rfl⟩
  · rw [ha] at h
    simp only [] at h
    by_cases hl : s.freqs.length < 3
    · rw [if_pos hl] at h
      cases Option.some.inj h
      exact ⟨rfl, rfl⟩
    · rw [if_neg hl] at h
      rcases hfl : fixLoop af s.freqs (s.freqs.length - 2) with _ | fr
      · rw [hfl] at h; exact absurd h (by simp)
      · rw [hfl] at h
        cases Option.some.inj h
        exact ⟨rfl, rfl⟩

/-- The misjudgment block never touches the `times` or `volumes` lists. -/
lemma misjudgmentStep_times (s2 : MState) (t : ℚ) (s3 : MState)
    (h : misjudgmentStep s2 t = some s3) :
    s3.times = s2.times ∧ s3.volumes = s2.volumes := by
  unfold misjudgmentStep at h
  simp only [] at h
  split at h
  · exact absurd h (by simp)
  · rename_i s3opt heq
    have hopt : s3opt.times = s2.times ∧ s3opt.volumes = s2.volumes := by
      split at heq
      · split at heq
        · split at heq
          · cases Option.some.inj heq; exact ⟨rfl, rfl⟩
          · split at heq
            · exact fixMisjudgment_times s2 s3opt heq
            · cases Option.some.inj heq; exact ⟨rfl, rfl⟩
        · cases Option.some.inj heq; exact ⟨rfl, rfl⟩
      · split at heq
        · cases Option.some.inj heq; exact ⟨rfl, rfl⟩
        · cases Option.some.inj heq; exact ⟨rfl, rfl⟩
    have hfin : s3.times = s3opt.times ∧ s3.volumes = s3opt.volumes := by
      split at h
      · split at h
        · cases Option.some.inj h; exact ⟨rfl, rfl⟩
        · cases Option.some.inj h; exact ⟨rfl, rfl⟩
      · cases Option.some.inj h; exact ⟨rfl, rfl⟩
    exact ⟨hfin.1.trans hopt.1, hfin.2.trans hopt.2⟩

/-- After a successful `process` call with positive time, the `times` and
`volumes` lists are exactly those produced by the append/evict phase. -/
lemma melodyProcess_times (s : MState) (t vol : ℚ) (peaks : List (ℚ × ℚ)) (s' : MState)
    (ht : 0 < t) (hrun : melodyProcess s t peaks vol = some s') :
    s'.times = (historyUpdate s t peaks vol).times
    ∧ s'.volumes = (historyUpdate s t peaks vol).volumes := by
  unfold melodyProcess at hrun
  rw [if_neg (not_le.mpr ht)] at hrun
  simp only [] at hrun
  split at hrun
  · exact misjudgmentStep_times _ t s' hrun
  · cases Option.some.inj hrun; exact ⟨rfl, rfl⟩

/-- If no time satisfies the in-window predicate, the index scan returns
`none`. -/
lemma firstValidIdx_none_of (cutoff T : ℚ) :
    ∀ l : List ℚ, (∀ x ∈ l, ¬(cutoff ≤ x ∧ x ≤ T)) → firstValidIdx cutoff T l = none := by
  intro l
  induction l with
  | nil => intro _; rfl
  | cons a as ih =>
    intro h
    simp only [firstValidIdx]
    rw [if_neg (h a (List.mem_cons_self a as)),
      ih (fun x hx => h x (List.mem_cons_of_mem a hx))]
    rfl

/-- On a nondecreasing list, everything from the first in-window index onward
is at least the cutoff. -/
lemma firstValidIdx_drop_ge (cutoff T : ℚ) :
    ∀ l : List ℚ, l.Pairwise (· ≤ ·) → ∀ k, firstValidIdx cutoff T l = some k →
      ∀ x ∈ l.drop k, cutoff ≤ x := by
  intro l
  induction l with
  | nil => intro _ k hk; simp [firstValidIdx] at hk
  | cons a as ih =>
    intro hp k hk x hx
    simp only [firstValidIdx] at hk
    by_cases hc : cutoff ≤ a ∧ a ≤ T
    · rw [if_pos hc] at hk
      cases Option.some.inj hk
      rw [List.drop_zero] at hx
      rcases List.mem_cons.mp hx with rfl | hx'
      · exact hc.1
      · exact le_trans hc.1 ((List.pairwise_cons.mp hp).1 x hx')
    · rw [if_neg hc] at hk
      obtain ⟨k', hk', rfl⟩ := Option.map_eq_some'.mp hk
      rw [List.drop_succ_cons] at hx
      exact ih (List.pairwise_cons.mp hp).2 k' hk' x hx

/-- After eviction on a nondecreasing time list, all remaining times are at
least `currentTime - time_window`. -/
lemma evictOld_times_ge (s1 : MState) (t : ℚ) (hp : s1.times.Pairwise (· ≤ ·)) :
    ∀ x ∈ (evictOld s1 t).times, t - timeWindow ≤ x := by
  unfold evictOld
  rcases hfvi : firstValidIdx (t - timeWindow) t s1.times with _ | k
  · intro x hx; simp at hx
  · intro x hx
    simp only [] at hx
    exact firstValidIdx_drop_ge _ _ s1.times hp k hfvi x hx

/-! ## C3: misjudgment confirmation clears the anchor -/

/-- C3 (amended).  Whenever, after the history update, the anchor is active,
at least 3 points remain, the consecutive pair (`freqs[-2]`, `freqs[-1]`)
stands in a nonzero non-unity harmonic ratio, the newly added point regresses
to a ~1:1 ratio against the anchor frequency, and the call completes without
an index error, the retroactive fix has run and both anchor fields
(`possible_misjudgment_peak_time`, `possible_misjudgment_peak_freq`) are
cleared afterward — regardless of how many points were fixed. -/
theorem misjudgment_confirmation (s : MState) (t vol f af : ℚ) (peaks : List (ℚ × ℚ))
    (s2 s' : MState)
    (ht : 0 < t)
    (hsel : selectMainPeak peaks = some f)
    (hs2 : historyUpdate s t peaks vol = s2)
    (hanch : s2.possibleMisjudgmentPeakFreq = some af)
    (hlen : 3 ≤ s2.freqs.length)
    (hm0 : harmonicMult (s2.freqs.getD (s2.freqs.length - 2) 0)
        (s2.freqs.getD (s2.freqs.length - 1) 0) multiplicationTolerance ≠ 0)
    (hm1 : absQ (harmonicMult (s2.freqs.getD (s2.freqs.length - 2) 0)
        (s2.freqs.getD (s2.freqs.length - 1) 0) multiplicationTolerance) ≠ 1)
    (hreg : absQ (harmonicMult af (s2.freqs.getD (s2.freqs.length - 1) 0)
        multiplicationTolerance) = 1)
    (hrun : melodyProcess s t peaks vol = some s') :
    s'.possibleMisjudgmentPeakTime = none ∧ s'.possibleMisjudgmentPeakFreq = none := by
  have h1 : 1 < s2.freqs.length := lt_of_lt_of_le (by norm_num) hlen
  unfold melodyProcess at hrun
  rw [if_neg (not_le.mpr ht), hsel, hs2] at hrun
  simp only [Option.isSome_some, true_and, if_pos h1] at hrun
  unfold misjudgmentStep at hrun
  simp only [hanch, if_pos hm0, if_pos hm1, if_pos hreg] at hrun
  rcases hfix : fixMisjudgment s2 with _ | s3
  · rw [hfix] at hrun; exact absurd hrun (by simp)
  · rw [hfix] at hrun
    obtain ⟨hT, hF⟩ := fixMisjudgment_clears s2 af s3 hanch (not_lt.mpr hlen) hfix
    simp only [hF] at hrun
    cases Option.some.inj hrun
    exact ⟨hT, hF⟩

/-- C3 witness: a concrete confirmed misjudgment — anchor (1, 100) active,
history [100, 200], new 100 Hz point at time 2.1; the fix rewrites 200 to 100
and both anchor fields are cleared. -/
theorem misjudgment_confirmation_witness :
    (⟨[1, 2, 21/10], [100, 100, 100], [0, 0, 0], none, none⟩ :
        MState).possibleMisjudgmentPeakTime = none ∧
    (⟨[1, 2, 21/10], [100, 100, 100], [0, 0, 0], none, none⟩ :
        MState).possibleMisjudgmentPeakFreq = none :=
  misjudgment_confirmation ⟨[1, 2], [100, 200], [0, 0], some 1, some 100⟩ (21/10) 0 100 100
    [(100, 0)]
    ⟨[1, 2, 21/10], [100, 200, 100], [0, 0, 0], some 1, some 100⟩
    ⟨[1, 2, 21/10], [100, 100, 100], [0, 0, 0], none, none⟩
    (by norm_num)
    rfl
    (by norm_num [historyUpdate, selectMainPeak, appendPoint, evictOld, firstValidIdx,
      timeWindow])
    rfl
    (by simp)
    (by simp [hm_200_100])
    (by norm_num [hm_200_100, absQ])
    (by norm_num [hm_100_100, absQ])
    (by norm_num [melodyProcess, misjudgmentStep, historyUpdate, selectMainPeak, appendPoint,
      evictOld, firstValidIdx, fixMisjudgment, fixLoop, timeWindow, misjudgmentMaxDuration,
      hm_200_100, hm_100_100, hm_100_200, absQ])

/-- C3 counterexample to the claim as stated: after `c3Trace` the anchor
(1, 120) is active and the newly added 120 Hz point is in exact 1:1 ratio with
the anchor frequency, yet no retroactive fix runs — the stored 240/600/400
values remain uncorrected (the disproof branch fires instead, because the
*consecutive* ratio 400:120 is not harmonic) — so "the misjudgment is
confirmed: the retroactive fix runs" fails. -/
theorem misjudgment_regression_without_fix :
    runTrace initState c3Trace = some c3PreState
    ∧ c3PreState.possibleMisjudgmentPeakFreq = some 120
    ∧ absQ (harmonicMult 120 120 multiplicationTolerance) = 1
    ∧ melodyProcess c3PreState (6/5) [(120, 0)] 0 = some c3PostState
    ∧ c3PostState.freqs = [120, 240, 600, 400, 120]
    ∧ c3PostState.possibleMisjudgmentPeakFreq = none :=
  ⟨c3run, rfl, by norm_num [hm_120_120, absQ], c3final, rfl, rfl⟩

/-! ## C5: the retroactive fix's backward scan is not in-bounds -/

/-- C5: the embedded tracker, fed `c5Trace`, reaches a state in which the
confirmed fix's backward scan finds no ~1:1 point among the retained points
(eviction removed the anchor's own point) and therefore walks past the oldest
retained point: the scan reads `freqs[-len-1]` and the call raises
`IndexError` (modelled by `none`). -/
theorem fix_scan_out_of_bounds : runTrace initState c5Trace = none := by
  norm_num [c5Trace, runTrace, c5s1, c5s2, c5s3, c5s4]

/-! ## C6: window eviction invariant -/

/-- C6.  For a `process` call with positive current time, nondecreasing stored
timestamps all at most the current time: afterwards every retained history
point has `time >= currentTime - time_window`; and if no point (old or new)
lies inside the window — i.e. the frame carries no peak and every stored point
is older than the cutoff — the three history lists are cleared entirely. -/
theorem window_eviction (s : MState) (t vol : ℚ) (peaks : List (ℚ × ℚ)) (s' : MState)
    (hsort : s.times.Pairwise (· ≤ ·)) (hle : ∀ x ∈ s.times, x ≤ t) (ht : 0 < t)
    (hrun : melodyProcess s t peaks vol = some s') :
    (∀ x ∈ s'.times, t - timeWindow ≤ x)
    ∧ (peaks = [] → (∀ x ∈ s.times, x < t - timeWindow) →
        s'.times = [] ∧ s'.freqs = [] ∧ s'.volumes = []) := by
  constructor
  · have htimes := (melodyProcess_times s t vol peaks s' ht hrun).1
    rw [htimes]
    unfold historyUpdate
    rcases hsel : selectMainPeak peaks with _ | fq
    · exact evictOld_times_ge s t hsort
    · apply evictOld_times_ge
      unfold appendPoint
      simp only [List.pairwise_append, List.pairwise_singleton, List.mem_singleton]
      exact ⟨hsort, trivial, fun x hx y hy => hy ▸ hle x hx⟩
  · intro hpk hold
    subst hpk
    have hfvi : firstValidIdx (t - timeWindow) t s.times = none :=
      firstValidIdx_none_of _ _ s.times
        (fun x hx hc => absurd hc.1 (not_le.mpr (hold x hx)))
    unfold melodyProcess at hrun
    rw [if_neg (not_le.mpr ht)] at hrun
    simp only [selectMainPeak, Option.isSome_none, Bool.false_eq_true, false_and,
      if_neg] at hrun
    unfold historyUpdate selectMainPeak evictOld at hrun
    rw [hfvi] at hrun
    cases Option.some.inj hrun
    exact ⟨rfl, rfl, rfl⟩

/-- C6 witness: history at times [1, 2], a 300 Hz peak arriving at time 3 —
every retained point lies inside the 10-second window afterwards. -/
theorem window_eviction_witness :
    (∀ x ∈ (⟨[1, 2, 3], [100, 200, 300], [0, 0, 0], none, none⟩ : MState).times,
        (3 : ℚ) - timeWindow ≤ x)
    ∧ ([((300 : ℚ), (0 : ℚ))] = [] →
        (∀ x ∈ (⟨[1, 2], [100, 200], [0, 0], none, none⟩ : MState).times,
          x < (3 : ℚ) - timeWindow) →
        (⟨[1, 2, 3], [100, 200, 300], [0, 0, 0], none, none⟩ : MState).times = []
        ∧ (⟨[1, 2, 3], [100, 200, 300], [0, 0, 0], none, none⟩ : MState).freqs = []
        ∧ (⟨[1, 2, 3], [100, 200, 300], [0, 0, 0], none, none⟩ : MState).volumes = []) :=
  window_eviction ⟨[1, 2], [100, 200], [0, 0], none, none⟩ 3 0 [(300, 0)]
    ⟨[1, 2, 3], [100, 200, 300], [0, 0, 0], none, none⟩
    (by norm_num [List.pairwise_cons])
    (by
      intro x hx
      simp only [List.mem_cons, List.not_mem_nil, or_false] at hx
      rcases hx with rfl | rfl <;> norm_num)
    (by norm_num)
    (by norm_num [melodyProcess, misjudgmentStep, historyUpdate, selectMainPeak, appendPoint,
      evictOld, firstValidIdx, timeWindow, misjudgmentMaxDuration, hm_200_300, absQ])

/-! ## C4: the dynamic-threshold pass -/

/-- The loop-with-accumulator form of the dynamic-threshold pass agrees with
the spec-worded "most recently kept" recursion. -/
lemma dynamicFilterGo_eq_specKeep : ∀ (l : List (ℕ × ℚ)) (p : ℚ),
    dynamicFilterGo (some p) l = specDynamicKeep p l := by
  intro l
  induction l with
  | nil => intro p; rfl
  | cons a rest ih =>
    intro p
    obtain ⟨idx, h0⟩ := a
    simp only [dynamicFilterGo, specDynamicKeep]
    by_cases hc : p * dynamicThreshold ≤ h0 + dbOffset
    · rw [if_pos hc, if_pos hc, ih]
    · rw [if_neg hc, if_neg hc, ih]

/-- C4.  The dynamic-threshold pass keeps the first (highest-frequency) peak
unconditionally, keeps a later peak exactly when its offset dB is at least the
most recently kept peak's offset dB times `dynamic_threshold` (baseline
updated only on keeps — this is the `specDynamicFilter` recursion), and on a
two-peak list the lower-frequency peak is dropped or kept according to that
comparison. -/
theorem dynamicThreshold_pass :
    (∀ l : List (ℕ × ℚ), dynamicFilter l = specDynamicFilter l)
    ∧ (∀ (i j : ℕ) (h1 h2 : ℚ), (dynamicFilter [(i, h1), (j, h2)]).head? = some i)
    ∧ (∀ (i j : ℕ) (h1 h2 : ℚ), h2 + dbOffset < (h1 + dbOffset) * dynamicThreshold →
        dynamicFilter [(i, h1), (j, h2)] = [i])
    ∧ (∀ (i j : ℕ) (h1 h2 : ℚ), (h1 + dbOffset) * dynamicThreshold ≤ h2 + dbOffset →
        dynamicFilter [(i, h1), (j, h2)] = [i, j]) := by
  refine ⟨?_, ?_, ?_, ?_⟩
  · intro l
    cases l with
    | nil => rfl
    | cons a rest =>
      obtain ⟨idx, h0⟩ := a
      simp only [dynamicFilter, dynamicFilterGo, specDynamicFilter]
      rw [dynamicFilterGo_eq_specKeep]
  · intro i j h1 h2; rfl
  · intro i j h1 h2 hlt
    simp only [dynamicFilter, dynamicFilterGo]
    rw [if_neg (not_le.mpr hlt)]
  · intro i j h1 h2 hge
    simp only [dynamicFilter, dynamicFilterGo]
    rw [if_pos hge]

/-- C4 witness: with `db_offset = 60` and threshold 0.72, a second peak at
-50 dB after a 0 dB peak is dropped (10 < 43.2) and one at -10 dB is kept
(50 >= 43.2). -/
theorem dynamicThreshold_pass_witness :
    ((-50 : ℚ) + dbOffset < ((0 : ℚ) + dbOffset) * dynamicThreshold
      ∧ dynamicFilter [(7, 0), (3, -50)] = [7])
    ∧ (((0 : ℚ) + dbOffset) * dynamicThreshold ≤ (-10 : ℚ) + dbOffset
      ∧ dynamicFilter [(7, 0), (3, -10)] = [7, 3]) :=
  ⟨⟨by norm_num [dbOffset, dynamicThreshold],
    dynamicThreshold_pass.2.2.1 7 3 0 (-50) (by norm_num [dbOffset, dynamicThreshold])⟩,
   ⟨by norm_num [dbOffset, dynamicThreshold],
    dynamicThreshold_pass.2.2.2 7 3 0 (-10) (by norm_num [dbOffset, dynamicThreshold])⟩⟩

/-! ## C7: the final sort of detect_peaks -/

/-- C7.  `_sort_peaks` returns at most `num` peaks, sorted by frequency
ascending, and they are `num` highest-amplitude survivors: the input is a
permutation of the output plus a rest, and no rest element has amplitude
above any returned element. -/
theorem sortPeaks_spec : ∀ l : List (ℚ × ℚ),
    (sortPeaks l).length ≤ peakNum
    ∧ (sortPeaks l).Pairwise (fun a b => a.1 ≤ b.1)
    ∧ ∃ rest : List (ℚ × ℚ), l.Perm (sortPeaks l ++ rest)
        ∧ ∀ a ∈ sortPeaks l, ∀ b ∈ rest, b.2 ≤ a.2 := by
  intro l
  set amp := l.mergeSort (fun a b => decide (b.2 ≤ a.2)) with hamp
  have hampPerm : amp.Perm l := List.mergeSort_perm l _
  have hampSorted : amp.Pairwise (fun a b : ℚ × ℚ => b.2 ≤ a.2) := by
    have h := @List.sorted_mergeSort (ℚ × ℚ) (fun a b => decide (b.2 ≤ a.2))
      (fun a b c hab hbc => by
        simp only [decide_eq_true_eq] at *
        exact le_trans hbc hab)
      (fun a b => by
        simp only [Bool.or_eq_true, decide_eq_true_eq]
        exact le_total b.2 a.2) l
    exact h.imp (fun hab => by simpa using hab)
  have hsp : sortPeaks l = (amp.take peakNum).mergeSort (fun a b => decide (a.1 ≤ b.1)) := by
    rw [sortPeaks, hamp]
  have hspPerm : (sortPeaks l).Perm (amp.take peakNum) := by
    rw [hsp]; exact List.mergeSort_perm _ _
  have hfreqSorted : (sortPeaks l).Pairwise (fun a b : ℚ × ℚ => a.1 ≤ b.1) := by
    rw [hsp]
    have h := @List.sorted_mergeSort (ℚ × ℚ) (fun a b => decide (a.1 ≤ b.1))
      (fun a b c hab hbc => by
        simp only [decide_eq_true_eq] at *
        exact le_trans hab hbc)
      (fun a b => by
        simp only [Bool.or_eq_true, decide_eq_true_eq]
        exact le_total a.1 b.1) (amp.take peakNum)
    exact h.imp (fun hab => by simpa using hab)
  refine ⟨?_, hfreqSorted, ?_⟩
  · rw [hspPerm.length_eq]
    exact List.length_take_le _ _
  · refine ⟨amp.drop peakNum, ?_, ?_⟩
    · have h1 : (sortPeaks l ++ amp.drop peakNum).Perm
          (amp.take peakNum ++ amp.drop peakNum) :=
        hspPerm.append_right _
      rw [List.take_append_drop] at h1
      exact (h1.trans hampPerm).symm
    · intro a ha b hb
      have ha' : a ∈ amp.take peakNum := hspPerm.mem_iff.mp ha
      have hsplit : (List.take peakNum amp ++ List.drop peakNum amp).Pairwise
          (fun a b : ℚ × ℚ => b.2 ≤ a.2) := by
        rw [List.take_append_drop]
        exact hampSorted
      exact (List.pairwise_append.mp hsplit).2.2 a ha' b hb

/-- C7 witness: the sort specification at a concrete three-peak list. -/
theorem sortPeaks_spec_witness :
    (sortPeaks [((300 : ℚ), (5 : ℚ)), (100, 20), (200, 10)]).length ≤ peakNum
    ∧ (sortPeaks [((300 : ℚ), (5 : ℚ)), (100, 20), (200, 10)]).Pairwise
        (fun a b => a.1 ≤ b.1)
    ∧ ∃ rest : List (ℚ × ℚ),
        ([((300 : ℚ), (5 : ℚ)), (100, 20), (200, 10)]).Perm
          (sortPeaks [((300 : ℚ), (5 : ℚ)), (100, 20), (200, 10)] ++ rest)
        ∧ ∀ a ∈ sortPeaks [((300 : ℚ), (5 : ℚ)), (100, 20), (200, 10)],
            ∀ b ∈ rest, b.2 ≤ a.2 :=
  sortPeaks_spec [(300, 5), (100, 20), (200, 10)]

/-! ## C8: parabolic sub-bin refinement -/

/-- `np.clip` keeps the value between its bounds. -/
lemma rclip_le (v lo hi : ℚ) (h : lo ≤ hi) : lo ≤ rclip v lo hi ∧ rclip v lo hi ≤ hi :=
  ⟨le_min h (le_max_left lo v), min_le_left hi _⟩

/-- C8.  With at least 3 subband bins and a nonnegative bin width, the
refinement index is clamped into `[1, len - 2]`, the refined frequency is
`x_subband[idx] + delta * freq_step` with the clipped parabolic `delta`
computed from `db_subband[idx-1..idx+1]`, and consequently the refined
frequency lies within half a bin of `x_subband[idx]`. -/
theorem parabolic_refinement (xs dbs : List ℚ) (approx freqStep : ℚ) (idx : ℕ)
    (hlen : 3 ≤ xs.length) (hstep : 0 ≤ freqStep)
    (hidx : idx = clampSubIdx (argminAbsIdx xs approx) xs.length) :
    (1 ≤ idx ∧ idx ≤ xs.length - 2)
    ∧ parabolicInterpolation xs freqStep idx dbs
        = xs.getD idx 0
          + rclip ((1/2) * (dbs.getD (idx - 1) 0 - dbs.getD (idx + 1) 0)
              / (dbs.getD (idx - 1) 0 - 2 * dbs.getD idx 0 + dbs.getD (idx + 1) 0 + epsQ))
              (-(1/2)) (1/2) * freqStep
    ∧ |parabolicInterpolation xs freqStep idx dbs - xs.getD idx 0| ≤ freqStep / 2 := by
  refine ⟨?_, rfl, ?_⟩
  · subst hidx
    unfold clampSubIdx
    omega
  · have hdiff : parabolicInterpolation xs freqStep idx dbs - xs.getD idx 0
        = rclip ((1/2) * (dbs.getD (idx - 1) 0 - dbs.getD (idx + 1) 0)
            / (dbs.getD (idx - 1) 0 - 2 * dbs.getD idx 0 + dbs.getD (idx + 1) 0 + epsQ))
            (-(1/2)) (1/2) * freqStep := by
      unfold parabolicInterpolation
      ring
    rw [hdiff, abs_mul, abs_of_nonneg hstep]
    have hb := rclip_le ((1/2) * (dbs.getD (idx - 1) 0 - dbs.getD (idx + 1) 0)
        / (dbs.getD (idx - 1) 0 - 2 * dbs.getD idx 0 + dbs.getD (idx + 1) 0 + epsQ))
        (-(1/2)) (1/2) (by norm_num)
    have habs : |rclip ((1/2) * (dbs.getD (idx - 1) 0 - dbs.getD (idx + 1) 0)
        / (dbs.getD (idx - 1) 0 - 2 * dbs.getD idx 0 + dbs.getD (idx + 1) 0 + epsQ))
        (-(1/2)) (1/2)| ≤ 1/2 := abs_le.mpr ⟨hb.1, hb.2⟩
    have := mul_le_mul_of_nonneg_right habs hstep
    linarith

/-- C8 witness: the axis [0, 10, 20] with target 15 refines around index 1 and
stays within half a bin. -/
theorem parabolic_refinement_witness :
    ((1 : ℕ) ≤ clampSubIdx (argminAbsIdx [0, 10, 20] 15) 3
      ∧ clampSubIdx (argminAbsIdx [0, 10, 20] 15) 3 ≤ 3 - 2)
    ∧ (3 ≤ ([(0 : ℚ), 10, 20]).length ∧ (0 : ℚ) ≤ 10)
    ∧ |parabolicInterpolation [0, 10, 20] 10
          (clampSubIdx (argminAbsIdx [(0 : ℚ), 10, 20] 15) ([(0 : ℚ), 10, 20]).length)
          [1, 2, 3]
        - ([(0 : ℚ), 10, 20]).getD
            (clampSubIdx (argminAbsIdx [(0 : ℚ), 10, 20] 15) ([(0 : ℚ), 10, 20]).length) 0|
      ≤ 10 / 2 := by
  refine ⟨?_, ⟨by simp, by norm_num⟩, ?_⟩
  · constructor
    · exact ((parabolic_refinement [0, 10, 20] [1, 2, 3] 15 10 _ (by simp) (by norm_num)
        rfl).1).1
    · exact ((parabolic_refinement [0, 10, 20] [1, 2, 3] 15 10 _ (by simp) (by norm_num)
        rfl).1).2
  · exact (parabolic_refinement [0, 10, 20] [1, 2, 3] 15 10 _ (by simp) (by norm_num)
      rfl).2.2

end AudioAnalysis
